import Mathlib

/-!
Verification development for the churn feature-engineering repository.

The embedding models `src/features/build_features.py` and
`src/utils/validate_dataset.py` over an explicit dataframe type:
a dataframe is an ordered list of named, dtype-tagged columns, and a
column's cells are typed values (text, integer, float — modelled
exactly as rationals —, boolean, or missing).
-/

namespace Churn

/-- A cell of a dataframe column.  Floats are modelled exactly as
rationals; `na` is a missing value (`NaN` / `None`). -/
inductive Cell
  | str : String → Cell
  | int : Int → Cell
  | rat : ℚ → Cell
  | bool : Bool → Cell
  | na : Cell
deriving DecidableEq, Repr

/-- Pandas dtypes that occur in the pipeline.  `int64Nullable` is the
nullable extension dtype `"Int64"`; `uint8` is the dtype of
`pd.get_dummies` indicator columns. -/
inductive Dtype
  | object
  | int64
  | float64
  | boolDt
  | int64Nullable
  | uint8
deriving DecidableEq, Repr

/-- A named column with a dtype tag and its cells. -/
structure Col where
  name : String
  dtype : Dtype
  cells : List Cell
deriving DecidableEq, Repr

/-- A dataframe: an ordered list of columns. -/
abbrev DataFrame := List Col

/-- The string payload of a textual cell. -/
def cellStr : Cell → Option String
  | Cell.str s => some s
  | _ => none

/-- Python `str()` of a cell value, as applied by `.astype(str)`.
`str(np.nan)` is the string `"nan"`. -/
def cellToStr : Cell → String
  | Cell.str s => s
  | Cell.int n => toString n
  | Cell.rat q => toString q
  | Cell.bool b => if b then "True" else "False"
  | Cell.na => "nan"

/-- A cell is a legal member of an `object` column holding text data:
either a string or missing. -/
def isObjCellB : Cell → Bool
  | Cell.str _ => true
  | Cell.na => true
  | _ => false

/-- `Series.astype(str)` (line 75 of `build_features.py`): every cell,
missing included, is replaced by its `str()` image; dtype is `object`. -/
def astype_str (col : Col) : Col :=
  ⟨col.name, Dtype.object, col.cells.map (fun c => Cell.str (cellToStr c))⟩

/-- Python's string comparison on the underlying code-point sequences
(lexicographic, by code point). -/
def lexLe : List Char → List Char → Bool
  | [], _ => true
  | _ :: _, [] => false
  | a :: as, b :: bs =>
      if a.toNat < b.toNat then true
      else if b.toNat < a.toNat then false
      else lexLe as bs

/-- Python's `<=` on strings. -/
def strle (a b : String) : Prop := lexLe a.data b.data = true

instance : DecidableRel strle := fun a b =>
  inferInstanceAs (Decidable (lexLe a.data b.data = true))

/-- Lift an optional integer back to a cell (`map` sends keys absent
from the mapping dict to `NaN`). -/
def cellOfOpt : Option Int → Cell
  | some n => Cell.int n
  | none => Cell.na

/-- The two-key mapping dict `{a: 0, b: 1}`. -/
def pairDict (a b : String) (v : String) : Option Int :=
  if v = a then some 0 else if v = b then some 1 else none

/-- `Series.map(d)` for a dict `d` with string keys: a string cell is
looked up in the dict, every other cell (missing included) is not a
key and becomes `NaN`. -/
def mapDict (d : String → Option Int) : Cell → Cell
  | Cell.str s => cellOfOpt (d s)
  | _ => Cell.na

/-- Lines 12-13 of `build_features.py`:
`values = set(list(pd.Series(s.dropna().unique()).astype(str)))` —
the `str()` images of the distinct non-missing cell values, as a
duplicate-free list (the set, in some enumeration order; only its
underlying set, its size and its sorted enumeration are ever used). -/
def mbsValueStrs (cells : List Cell) : List String :=
  (((cells.filter (fun c => c ≠ Cell.na)).dedup).map cellToStr).dedup

/-- `_map_binary_series` (lines 3-35 of `build_features.py`).
Rule order as in the source: the `{"Yes","No"}` dict, then the
`{"Male","Female"}` dict, then for any other two-element value set the
dict built from `sorted(values)`; otherwise the series is returned
unchanged.  The generic branch maps `s.astype(str)`, so there a cell is
looked up by its `str()` image. -/
def map_binary_series (col : Col) : Col :=
  let values := mbsValueStrs col.cells
  if values.toFinset = ({"Yes", "No"} : Finset String) then
    ⟨col.name, Dtype.int64Nullable, col.cells.map (mapDict (pairDict "No" "Yes"))⟩
  else if values.toFinset = ({"Male", "Female"} : Finset String) then
    ⟨col.name, Dtype.int64Nullable, col.cells.map (mapDict (pairDict "Female" "Male"))⟩
  else if values.length = 2 then
    match List.insertionSort strle values with
    | [a, b] =>
        ⟨col.name, Dtype.int64Nullable,
          col.cells.map (fun c => cellOfOpt (pairDict a b (cellToStr c)))⟩
    | _ => col
  else col

/-- `df[c].dropna().nunique()` (line 61): the number of distinct
non-missing cell values. -/
def nuniqueDropna (cells : List Cell) : Nat :=
  ((cells.filter (fun c => c ≠ Cell.na)).dedup).length

/-- Membership test for line 61: an `object` column other than the
target with exactly 2 distinct non-missing values. -/
def isBinaryColB (target : String) (col : Col) : Bool :=
  decide (col.dtype = Dtype.object) && decide (col.name ≠ target) &&
    decide (nuniqueDropna col.cells = 2)

/-- Membership test for line 62: an `object` column other than the
target with more than 2 distinct non-missing values. -/
def isMultiColB (target : String) (col : Col) : Bool :=
  decide (col.dtype = Dtype.object) && decide (col.name ≠ target) &&
    decide (2 < nuniqueDropna col.cells)

/-- `binary_cols` (line 61), as the list of column names. -/
def binaryNames (target : String) (df : DataFrame) : List String :=
  (df.filter (isBinaryColB target)).map Col.name

/-- `multi_cols` (line 62), as the list of column names. -/
def multiNames (target : String) (df : DataFrame) : List String :=
  (df.filter (isMultiColB target)).map Col.name

/-- Step 3 (lines 73-75): every binary column is replaced by
`_map_binary_series(df[c].astype(str))`.  The per-column decision of
line 61 depends only on that column, so the loop is a column-wise map. -/
def step3 (target : String) (df : DataFrame) : DataFrame :=
  df.map (fun col => if isBinaryColB target col then map_binary_series (astype_str col) else col)

/-- `astype(int)` of a boolean cell. -/
def boolCellToInt : Cell → Cell
  | Cell.bool b => Cell.int (if b then 1 else 0)
  | c => c

/-- Step 4 (lines 80-82): boolean columns become 0/1 `int` columns. -/
def step4 (df : DataFrame) : DataFrame :=
  df.map (fun col =>
    if col.dtype = Dtype.boolDt then ⟨col.name, Dtype.int64, col.cells.map boolCellToInt⟩
    else col)

/-- The categories of a column as used by `pd.get_dummies`: the
distinct non-missing (textual) values in ascending order. -/
def categoriesOf (cells : List Cell) : List String :=
  List.insertionSort strle ((cells.filterMap cellStr).dedup)

/-- The indicator columns `pd.get_dummies(..., drop_first=True)`
produces for one source column: one 0/1 column named
`f"{col}_{category}"` per category except the first in sorted order.
A missing source value yields 0 in every indicator (`dummy_na=False`).
(The indicator dtype is the small unsigned integer dtype pandas uses
for dummies; its cells are the integers 0 and 1.) -/
def dummiesOf (col : Col) : List Col :=
  ((categoriesOf col.cells).drop 1).map (fun cat =>
    ⟨col.name ++ "_" ++ cat, Dtype.uint8,
      col.cells.map (fun c => Cell.int (if c = Cell.str cat then 1 else 0))⟩)

/-- Step 5 (lines 87-94): `pd.get_dummies(df, columns=multi_cols,
drop_first=True)` keeps the non-encoded columns in their original
order and appends each encoded column's indicator block at the end. -/
def step5 (multi : List String) (df : DataFrame) : DataFrame :=
  df.filter (fun col => !(decide (col.name ∈ multi))) ++
    ((df.filter (fun col => decide (col.name ∈ multi))).map dummiesOf).flatten

/-- `pd.api.types.is_integer_dtype` (line 99). -/
def isIntegerDtype : Dtype → Bool
  | Dtype.int64 => true
  | Dtype.int64Nullable => true
  | Dtype.uint8 => true
  | _ => false

/-- `fillna(0)` on an integer column. -/
def fillna0 : Cell → Cell
  | Cell.na => Cell.int 0
  | c => c

/-- `df[c].fillna(0).astype(int)` (line 101). -/
def cleanupCol (col : Col) : Col :=
  ⟨col.name, Dtype.int64, col.cells.map fillna0⟩

/-- Step 6 (lines 98-101): every column of `binary_cols` that carries
an integer dtype has missing entries imputed to 0 and is converted to
plain `int`. -/
def step6 (binary : List String) (df : DataFrame) : DataFrame :=
  df.map (fun col =>
    if col.name ∈ binary ∧ isIntegerDtype col.dtype = true then cleanupCol col else col)

/-- `build_features` (lines 37-105): the value computed for the local
name `df` and returned.  `binary_cols` and `multi_cols` are computed
once, from the input, before any encoding (lines 61-62). -/
def build_features (df : DataFrame) (target_col : String := "Churn") : DataFrame :=
  step6 (binaryNames target_col df)
    (step5 (multiNames target_col df) (step4 (step3 target_col df)))

/-! ### Python object semantics of the two entry points

`PyState` tracks the caller's dataframe object alongside the value the
local name `df` currently denotes, together with whether that name
still aliases the caller's object.  An in-place statement
(`df[c] = ...`, `df[cols] = ...`) writes through the alias; an
ordinary assignment (`df = df.copy()`, `df = pd.get_dummies(...)`)
rebinds the local name to a fresh object. -/

/-- The caller's object, the local binding, and whether they alias. -/
structure PyState where
  caller : DataFrame
  df : DataFrame
  aliased : Bool
deriving DecidableEq, Repr

/-- An in-place mutation through the local name: it also hits the
caller's object exactly when the name still aliases it. -/
def inplace (f : DataFrame → DataFrame) (s : PyState) : PyState :=
  ⟨if s.aliased then f s.caller else s.caller, f s.df, s.aliased⟩

/-- `df = df.copy()` (line 47 of `build_features.py`): the local name
is rebound to a fresh object with the same value. -/
def rebindCopy (s : PyState) : PyState := ⟨s.caller, s.df, false⟩

/-- `df = g(df)` for a value-producing `g` (line 91,
`df = pd.get_dummies(...)`): the local name is rebound. -/
def rebindTo (f : DataFrame → DataFrame) (s : PyState) : PyState :=
  ⟨s.caller, f s.df, false⟩

/-- `build_features` with the caller's object tracked: line 47 copies,
lines 73-75/80-82/98-101 assign columns in place, line 91 rebinds. -/
def build_features_py (df0 : DataFrame) (target_col : String := "Churn") : PyState :=
  let s1 := rebindCopy ⟨df0, df0, true⟩
  let s2 := inplace (step3 target_col) s1
  let s3 := inplace step4 s2
  let s4 := rebindTo (step5 (multiNames target_col df0)) s3
  inplace (step6 (binaryNames target_col df0)) s4

/-! ### Row permutations -/

/-- Reindex a column's cells by a list of row indices. -/
def applyPerm (p : List Nat) (l : List Cell) : List Cell :=
  p.map (fun i => l.getD i Cell.na)

/-- Reindex one column. -/
def permCol (p : List Nat) (col : Col) : Col :=
  ⟨col.name, col.dtype, applyPerm p col.cells⟩

/-- Reindex every column of a dataframe by the same row permutation. -/
def permuteDF (p : List Nat) (df : DataFrame) : DataFrame :=
  df.map (permCol p)

/-! ### The validator, `src/utils/validate_dataset.py` -/

/-- Parse an unsigned decimal numeral `digits [ "." digits ]` with at
least one digit, as an exact rational. -/
def parseUnsigned (cs : List Char) : Option ℚ :=
  let intPart := cs.takeWhile (fun c => c.isDigit)
  let rest := cs.dropWhile (fun c => c.isDigit)
  let intVal : ℕ := intPart.foldl (fun acc c => 10 * acc + (c.toNat - 48)) 0
  match rest with
  | [] => if intPart.isEmpty then none else some (intVal : ℚ)
  | '.' :: frac =>
      if frac.all (fun c => c.isDigit) && !(intPart.isEmpty && frac.isEmpty) then
        some ((intVal : ℚ) +
          (frac.foldl (fun acc c => 10 * acc + (c.toNat - 48)) 0 : ℚ) / ((10 : ℚ) ^ frac.length))
      else none
  | _ => none

/-- `pd.to_numeric(..., errors="coerce")` on one string (line 69):
a decimal numeral with optional sign parses to its exact value, any
other string coerces to missing.  (Modelled for plain fixed-point
numerals, the shape of the `TotalCharges` field.)  Total: coercion
never raises. -/
def parse_numeric (s : String) : Option ℚ :=
  match s.data with
  | '+' :: cs => parseUnsigned cs
  | '-' :: cs => (parseUnsigned cs).map (fun q => -q)
  | cs => parseUnsigned cs

/-- Python's `str.strip()`: drop leading and trailing whitespace. -/
def pyStrip (s : String) : String :=
  ⟨((s.data.dropWhile Char.isWhitespace).reverse.dropWhile Char.isWhitespace).reverse⟩

/-- Lines 68-71 applied to one cell of the `TotalCharges` column:
`.str.strip()` (non-strings become `NaN`), `to_numeric(errors="coerce")`
(unparsable becomes `NaN`), `fillna(0)`, `astype(float)`. -/
def fixCell : Cell → Cell
  | Cell.str s =>
      match parse_numeric (pyStrip s) with
      | some q => Cell.rat q
      | none => Cell.rat 0
  | _ => Cell.rat 0

/-- Lines 68-71 applied to the whole `TotalCharges` column. -/
def fixTotalCharges (cells : List Cell) : List Cell := cells.map fixCell

/-- The four in-place assignments of lines 68-71 on the dataframe:
the `TotalCharges` column is replaced by its cleaned, `float64` form. -/
def mutateTC (df : DataFrame) : DataFrame :=
  df.map (fun col =>
    if col.name = "TotalCharges" then ⟨col.name, Dtype.float64, fixTotalCharges col.cells⟩
    else col)

/-- `df.find?` by column name (pandas `df[name]`, first match). -/
def colFind (df : DataFrame) (n : String) : Option Col :=
  df.find? (fun c => decide (c.name = n))

/-- `expect_column_to_exist`. -/
def colExistsCheck (df : DataFrame) (n : String) : Bool :=
  (colFind df n).isSome

/-- `expect_column_values_to_not_be_null`.  (On a missing column the
library raises instead; that case is cut off by `requiredOk` below.) -/
def notNullCheck (df : DataFrame) (n : String) : Bool :=
  match colFind df n with
  | some c => c.cells.all (fun x => decide (x ≠ Cell.na))
  | none => false

/-- `expect_column_values_to_be_in_set`: every non-missing value lies
in the given value set (missing entries are ignored by the library). -/
def inSetCheck (df : DataFrame) (n : String) (vs : List String) : Bool :=
  match colFind df n with
  | some c =>
      c.cells.all (fun x =>
        match x with
        | Cell.na => true
        | Cell.str s => decide (s ∈ vs)
        | _ => false)
  | none => false

/-- `expect_column_values_to_be_between` with only a lower bound:
every non-missing numeric value is at least `lo`. -/
def betweenMinCheck (df : DataFrame) (n : String) (lo : ℚ) : Bool :=
  match colFind df n with
  | some c =>
      c.cells.all (fun x =>
        match x with
        | Cell.int k => decide (lo ≤ (k : ℚ))
        | Cell.rat q => decide (lo ≤ q)
        | _ => true)
  | none => false

/-- `expect_column_values_to_be_between` with both bounds. -/
def betweenCheck (df : DataFrame) (n : String) (lo hi : ℚ) : Bool :=
  match colFind df n with
  | some c =>
      c.cells.all (fun x =>
        match x with
        | Cell.int k => decide (lo ≤ (k : ℚ) ∧ (k : ℚ) ≤ hi)
        | Cell.rat q => decide (lo ≤ q ∧ q ≤ hi)
        | _ => true)
  | none => false

/-- The expectation suite of `validate_telco_dataset`, as
(identifier, outcome) pairs in source order (lines 22-93).  The
identifier of a check is its `expectation_type` string, exactly what
line 109-110 appends to `failed_expectations`.  All checks are
evaluated against the dataframe as passed in (`ge.from_pandas` at
line 17 snapshots it before lines 68-71 mutate `TotalCharges`; no
check reads the values of `TotalCharges`). -/
def checkList (df : DataFrame) : List (String × Bool) :=
  [("expect_column_to_exist", colExistsCheck df "customerID"),
   ("expect_column_values_to_not_be_null", notNullCheck df "customerID"),
   ("expect_column_to_exist", colExistsCheck df "gender"),
   ("expect_column_to_exist", colExistsCheck df "Partner"),
   ("expect_column_to_exist", colExistsCheck df "Dependents"),
   ("expect_column_to_exist", colExistsCheck df "PhoneService"),
   ("expect_column_to_exist", colExistsCheck df "InternetService"),
   ("expect_column_to_exist", colExistsCheck df "Contract"),
   ("expect_column_to_exist", colExistsCheck df "tenure"),
   ("expect_column_to_exist", colExistsCheck df "MonthlyCharges"),
   ("expect_column_to_exist", colExistsCheck df "TotalCharges"),
   ("expect_column_values_to_be_in_set", inSetCheck df "gender" ["Male", "Female"]),
   ("expect_column_values_to_be_in_set", inSetCheck df "Partner" ["Yes", "No"]),
   ("expect_column_values_to_be_in_set", inSetCheck df "Dependents" ["Yes", "No"]),
   ("expect_column_values_to_be_in_set", inSetCheck df "PhoneService" ["Yes", "No"]),
   ("expect_column_values_to_be_in_set",
     inSetCheck df "Contract" ["Month-to-month", "One year", "Two year"]),
   ("expect_column_values_to_be_in_set",
     inSetCheck df "InternetService" ["DSL", "Fiber optic", "No"]),
   ("expect_column_values_to_be_between", betweenMinCheck df "tenure" 0),
   ("expect_column_values_to_be_between", betweenMinCheck df "MonthlyCharges" 0),
   ("expect_column_values_to_be_between", betweenCheck df "tenure" 0 120),
   ("expect_column_values_to_be_between", betweenCheck df "MonthlyCharges" 0 200),
   ("expect_column_values_to_not_be_null", notNullCheck df "tenure"),
   ("expect_column_values_to_not_be_null", notNullCheck df "MonthlyCharges")]

/-- Whether `isNumericDtype` holds of a dtype (`int64` or `float64`). -/
def isNumericDtype : Dtype → Bool
  | Dtype.int64 => true
  | Dtype.float64 => true
  | _ => false

/-- The inputs on which `validate_telco_dataset` runs to completion
instead of raising: every column a value-level expectation touches
must exist, the range-checked columns must be numeric (comparing a
non-numeric column with a number raises `TypeError`), and
`TotalCharges` must exist with `object` dtype (line 68's
`.str` accessor raises on a non-`object` column, and `df["TotalCharges"]`
raises `KeyError` when the column is absent). -/
def requiredOk (df : DataFrame) : Bool :=
  colExistsCheck df "customerID" && colExistsCheck df "gender" &&
  colExistsCheck df "Partner" && colExistsCheck df "Dependents" &&
  colExistsCheck df "PhoneService" && colExistsCheck df "Contract" &&
  colExistsCheck df "InternetService" &&
  (match colFind df "tenure" with
   | some c => isNumericDtype c.dtype
   | none => false) &&
  (match colFind df "MonthlyCharges" with
   | some c => isNumericDtype c.dtype
   | none => false) &&
  (match colFind df "TotalCharges" with
   | some c => decide (c.dtype = Dtype.object)
   | none => false)

/-- `validate_telco_dataset` with the caller's object tracked.
`none` models an uncaught exception.  Otherwise the function returns
`(results["success"], failed_expectations)` (lines 104-123), and the
caller's dataframe object — never copied, mutated in place by lines
68-71 — is the final `PyState`. -/
def validate_run (df : DataFrame) : Option ((Bool × List String) × PyState) :=
  if requiredOk df then
    some (((checkList df).all (fun r => r.2),
           ((checkList df).filter (fun r => !r.2)).map (fun r => r.1)),
          inplace mutateTC ⟨df, df, true⟩)
  else none

/-- The return value of `validate_telco_dataset` (line 123):
`none` models an uncaught exception. -/
def validate_telco_dataset (df : DataFrame) : Option (Bool × List String) :=
  (validate_run df).map (fun r => r.1)

/-! ### Concrete dataframes used as witnesses and counterexamples -/

/-- A binary `Partner` column without missing values. -/
def col1W : Col := ⟨"Partner", Dtype.object, [Cell.str "Yes", Cell.str "No", Cell.str "Yes"]⟩

/-- A generic binary column with vocabulary `{"A","B"}`. -/
def colABW : Col := ⟨"Flag", Dtype.object, [Cell.str "B", Cell.str "A"]⟩

/-- A three-category `Contract` column with one missing entry. -/
def colC2X : Col :=
  ⟨"Contract", Dtype.object, [Cell.str "A", Cell.str "B", Cell.str "C", Cell.na]⟩

/-- The spec's `Contract` scenario column (three categories, no
missing values). -/
def colC2W : Col :=
  ⟨"Contract", Dtype.object,
    [Cell.str "Month-to-month", Cell.str "One year", Cell.str "Two year",
     Cell.str "Month-to-month"]⟩

/-- A binary column with a missing entry, the failing input of the
missing-value handling claim. -/
def dfC3 : DataFrame := [⟨"Partner", Dtype.object, [Cell.str "Yes", Cell.na, Cell.str "No"]⟩]

/-- A dataframe whose target column is boolean. -/
def dfC5 : DataFrame := [⟨"Churn", Dtype.boolDt, [Cell.bool true, Cell.bool false]⟩]

/-- A dataframe whose target column is textual with two values. -/
def dfC5W : DataFrame := [⟨"Churn", Dtype.object, [Cell.str "Yes", Cell.str "No"]⟩]

/-- A dataframe with a constant textual column. -/
def dfC6W : DataFrame := [⟨"cID", Dtype.object, [Cell.str "x", Cell.str "x"]⟩]

/-- A small mixed dataframe for the determinism witness. -/
def dfC4W : DataFrame :=
  [⟨"Churn", Dtype.object, [Cell.str "Yes", Cell.str "No"]⟩,
   ⟨"Partner", Dtype.object, [Cell.str "No", Cell.str "Yes"]⟩,
   ⟨"Contract", Dtype.object, [Cell.str "One year", Cell.str "Two year"]⟩,
   ⟨"tenure", Dtype.int64, [Cell.int 3, Cell.int 7]⟩]

/-- A schema-complete valid Telco dataframe. -/
def dfVW : DataFrame :=
  [⟨"customerID", Dtype.object, [Cell.str "c1"]⟩,
   ⟨"gender", Dtype.object, [Cell.str "Male"]⟩,
   ⟨"Partner", Dtype.object, [Cell.str "Yes"]⟩,
   ⟨"Dependents", Dtype.object, [Cell.str "No"]⟩,
   ⟨"PhoneService", Dtype.object, [Cell.str "Yes"]⟩,
   ⟨"InternetService", Dtype.object, [Cell.str "DSL"]⟩,
   ⟨"Contract", Dtype.object, [Cell.str "One year"]⟩,
   ⟨"tenure", Dtype.int64, [Cell.int 5]⟩,
   ⟨"MonthlyCharges", Dtype.float64, [Cell.rat 50]⟩,
   ⟨"TotalCharges", Dtype.object, [Cell.str " 250.5 "]⟩]

end Churn


namespace Churn

/-- `colOut` carries value `k` wherever `colIn` carries the string `v`. -/
def mapsAt (colIn colOut : Col) (v : String) (k : Int) : Prop :=
  ∀ i, colIn.cells.getD i Cell.na = Cell.str v → colOut.cells.getD i Cell.na = Cell.int k

/-- Numeric reading of a cell (0 for anything non-integer). -/
def cellInt : Cell → Int
  | Cell.int n => n
  | _ => 0

/-- The sum, at row `i`, of a list of indicator columns. -/
def dummyRowSum (ds : List Col) (i : Nat) : Int :=
  (ds.map (fun d => cellInt (d.cells.getD i Cell.na))).sum

end Churn

namespace Churn

/-! ### The lexicographic string order -/

theorem char_toNat_inj {a b : Char} (h : a.toNat = b.toNat) : a = b :=
  Char.ext (UInt32.ext h)

theorem lexLe_cons_iff (a b : Char) (as bs : List Char) :
    lexLe (a :: as) (b :: bs) = true ↔
      a.toNat < b.toNat ∨ (a.toNat = b.toNat ∧ lexLe as bs = true) := by
  by_cases h1 : a.toNat < b.toNat
  · simp [lexLe, h1]
  · by_cases h2 : b.toNat < a.toNat
    · have hne : a.toNat ≠ b.toNat := by omega
      simp [lexLe, h1, h2, hne]
    · have heq : a.toNat = b.toNat := by omega
      simp [lexLe, h1, h2, heq]

theorem lexLe_total (l1 l2 : List Char) : lexLe l1 l2 = true ∨ lexLe l2 l1 = true := by
  induction l1 generalizing l2 with
  | nil => left; rfl
  | cons a as ih =>
    cases l2 with
    | nil => right; rfl
    | cons b bs =>
      rcases Nat.lt_trichotomy a.toNat b.toNat with h | h | h
      · left; rw [lexLe_cons_iff]; exact Or.inl h
      · rcases ih bs with hr | hr
        · left; rw [lexLe_cons_iff]; exact Or.inr ⟨h, hr⟩
        · right; rw [lexLe_cons_iff]; exact Or.inr ⟨h.symm, hr⟩
      · right; rw [lexLe_cons_iff]; exact Or.inl h

theorem lexLe_trans {l1 l2 l3 : List Char} (h12 : lexLe l1 l2 = true)
    (h23 : lexLe l2 l3 = true) : lexLe l1 l3 = true := by
  induction l1 generalizing l2 l3 with
  | nil => rfl
  | cons a as ih =>
    cases l2 with
    | nil => simp [lexLe] at h12
    | cons b bs =>
      cases l3 with
      | nil => simp [lexLe] at h23
      | cons c cs =>
        rw [lexLe_cons_iff] at h12 h23 ⊢
        rcases h12 with h12 | ⟨h12e, h12r⟩
        · rcases h23 with h23 | ⟨h23e, _⟩
          · exact Or.inl (h12.trans h23)
          · exact Or.inl (by omega)
        · rcases h23 with h23 | ⟨h23e, h23r⟩
          · exact Or.inl (by omega)
          · exact Or.inr ⟨by omega, ih h12r h23r⟩

theorem lexLe_antisymm {l1 l2 : List Char} (h12 : lexLe l1 l2 = true)
    (h21 : lexLe l2 l1 = true) : l1 = l2 := by
  induction l1 generalizing l2 with
  | nil =>
    cases l2 with
    | nil => rfl
    | cons b bs => simp [lexLe] at h21
  | cons a as ih =>
    cases l2 with
    | nil => simp [lexLe] at h12
    | cons b bs =>
      rw [lexLe_cons_iff] at h12 h21
      rcases h12 with h12 | ⟨h12e, h12r⟩
      · rcases h21 with h21 | ⟨h21e, _⟩
        · omega
        · omega
      · rcases h21 with h21 | ⟨h21e, h21r⟩
        · omega
        · rw [char_toNat_inj h12e, ih h12r h21r]

theorem string_data_inj {a b : String} (h : a.data = b.data) : a = b := by
  cases a; cases b; exact congrArg String.mk h

instance : IsTotal String strle := ⟨fun a b => lexLe_total a.data b.data⟩

instance : IsTrans String strle := ⟨fun _ _ _ => lexLe_trans⟩

instance : IsAntisymm String strle :=
  ⟨fun _ _ h1 h2 => string_data_inj (lexLe_antisymm h1 h2)⟩

/-- A two-element value list sorts to `[a, b]` when `a` precedes `b`. -/
theorem insertionSort_pair_eq {l : List String} {a b : String} (hlen : l.length = 2)
    (hfs : l.toFinset = {a, b}) (hne : a ≠ b) (hab : strle a b) :
    List.insertionSort strle l = [a, b] := by
  have hperm := List.perm_insertionSort strle l
  have hsorted := List.sorted_insertionSort strle l
  have hslen : (List.insertionSort strle l).length = 2 := hperm.length_eq.trans hlen
  have hsfs : (List.insertionSort strle l).toFinset = {a, b} := by
    rw [List.toFinset_eq_of_perm _ _ hperm, hfs]
  rcases List.length_eq_two.mp hslen with ⟨x, y, hxy⟩
  rw [hxy] at hsfs hsorted ⊢
  have hx : x = a ∨ x = b := by
    have hm : x ∈ ({a, b} : Finset String) := by rw [← hsfs]; simp
    simpa using hm
  have hmema : a = x ∨ a = y := by
    have hm : a ∈ [x, y].toFinset := by rw [hsfs]; simp
    simpa using hm
  have hmemb : b = x ∨ b = y := by
    have hm : b ∈ [x, y].toFinset := by rw [hsfs]; simp
    simpa using hm
  have hxyle : strle x y := List.rel_of_sorted_cons hsorted y (by simp)
  rcases hx with hx | hx
  · rcases hmemb with hb | hb
    · exact absurd ((hb.trans hx).symm) hne
    · rw [hx, ← hb]
  · -- x = b forces y = a, contradicting antisymmetry
    rcases hmema with ha | ha
    · exact absurd (ha.trans hx) hne
    · rw [hx, ← ha] at hxyle
      exact absurd (antisymm hab hxyle) hne

end Churn

namespace Churn

/-! ### C1 — the binary encoder's mapping rules -/

theorem mbs_branch1 (col : Col)
    (h : (mbsValueStrs col.cells).toFinset = ({"Yes", "No"} : Finset String)) :
    map_binary_series col =
      ⟨col.name, Dtype.int64Nullable, col.cells.map (mapDict (pairDict "No" "Yes"))⟩ := by
  unfold map_binary_series
  rw [if_pos h]

theorem mbs_branch2 (col : Col)
    (h1 : (mbsValueStrs col.cells).toFinset ≠ ({"Yes", "No"} : Finset String))
    (h : (mbsValueStrs col.cells).toFinset = ({"Male", "Female"} : Finset String)) :
    map_binary_series col =
      ⟨col.name, Dtype.int64Nullable, col.cells.map (mapDict (pairDict "Female" "Male"))⟩ := by
  unfold map_binary_series
  rw [if_neg h1, if_pos h]

theorem mbs_branch3 (col : Col) {a b : String}
    (h1 : (mbsValueStrs col.cells).toFinset ≠ ({"Yes", "No"} : Finset String))
    (h2 : (mbsValueStrs col.cells).toFinset ≠ ({"Male", "Female"} : Finset String))
    (hlen : (mbsValueStrs col.cells).length = 2)
    (hne : a ≠ b) (hab : strle a b)
    (hfs : (mbsValueStrs col.cells).toFinset = {a, b}) :
    map_binary_series col =
      ⟨col.name, Dtype.int64Nullable,
        col.cells.map (fun c => cellOfOpt (pairDict a b (cellToStr c)))⟩ := by
  unfold map_binary_series
  rw [if_neg h1, if_neg h2, if_pos hlen, insertionSort_pair_eq hlen hfs hne hab]

/-- Pointwise consequence of an output of the shape `cells.map f`. -/
theorem mapsAt_of_map (colIn colOut : Col) (f : Cell → Cell)
    (hout : colOut.cells = colIn.cells.map f) (v : String) (k : Int)
    (hf : f (Cell.str v) = Cell.int k) : mapsAt colIn colOut v k := by
  intro i hi
  have hlt : i < colIn.cells.length := by
    by_contra hge
    rw [List.getD_eq_getElem?_getD, List.getElem?_eq_none (by omega)] at hi
    simp at hi
  have hcell : colIn.cells[i] = Cell.str v := by
    rw [List.getD_eq_getElem _ _ hlt] at hi
    exact hi
  rw [hout, List.getD_eq_getElem?_getD, List.getElem?_map,
    List.getElem?_eq_getElem hlt, hcell]
  simp [hf]

/-- C1: for a column whose observed non-missing value set has exactly
two elements, `_map_binary_series` applies the three mapping rules in
priority order, first match wins: a `{"Yes","No"}` set maps No to 0 and
Yes to 1; otherwise a `{"Male","Female"}` set maps Female to 0 and Male
to 1; otherwise, for any other two-element set `{a, b}` with `a`
lexicographically smaller, `a` maps to 0 and `b` to 1.  The encoded
column keeps its name and carries the nullable integer dtype; the
mapping depends only on the value set, never on frequency or order of
appearance. -/
theorem map_binary_series_rules (col : Col)
    (h2 : (mbsValueStrs col.cells).length = 2) :
    (map_binary_series col).name = col.name ∧
    (map_binary_series col).dtype = Dtype.int64Nullable ∧
    ((mbsValueStrs col.cells).toFinset = ({"Yes", "No"} : Finset String) →
      mapsAt col (map_binary_series col) "No" 0 ∧
        mapsAt col (map_binary_series col) "Yes" 1) ∧
    ((mbsValueStrs col.cells).toFinset ≠ ({"Yes", "No"} : Finset String) →
      (mbsValueStrs col.cells).toFinset = ({"Male", "Female"} : Finset String) →
      mapsAt col (map_binary_series col) "Female" 0 ∧
        mapsAt col (map_binary_series col) "Male" 1) ∧
    ((mbsValueStrs col.cells).toFinset ≠ ({"Yes", "No"} : Finset String) →
      (mbsValueStrs col.cells).toFinset ≠ ({"Male", "Female"} : Finset String) →
      ∀ a b : String, a ≠ b → strle a b →
        (mbsValueStrs col.cells).toFinset = {a, b} →
        mapsAt col (map_binary_series col) a 0 ∧
          mapsAt col (map_binary_series col) b 1) := by
  refine ⟨?_, ?_, ?_, ?_, ?_⟩
  · -- name preserved in every branch reachable under h2
    by_cases hA : (mbsValueStrs col.cells).toFinset = ({"Yes", "No"} : Finset String)
    · rw [mbs_branch1 col hA]
    · by_cases hB : (mbsValueStrs col.cells).toFinset = ({"Male", "Female"} : Finset String)
      · rw [mbs_branch2 col hA hB]
      · rcases List.length_eq_two.mp h2 with ⟨x, y, hxy⟩
        have hnexy : x ≠ y := by
          have hnd : (mbsValueStrs col.cells).Nodup := List.nodup_dedup _
          rw [hxy] at hnd
          simpa using hnd
        rcases total_of strle x y with hxyle | hyxle
        · rw [mbs_branch3 col hA hB h2 hnexy hxyle (by rw [hxy]; simp)]
        · rw [mbs_branch3 col hA hB h2 (Ne.symm hnexy) hyxle
            (by rw [hxy]; simp [Finset.pair_comm])]
  · by_cases hA : (mbsValueStrs col.cells).toFinset = ({"Yes", "No"} : Finset String)
    · rw [mbs_branch1 col hA]
    · by_cases hB : (mbsValueStrs col.cells).toFinset = ({"Male", "Female"} : Finset String)
      · rw [mbs_branch2 col hA hB]
      · rcases List.length_eq_two.mp h2 with ⟨x, y, hxy⟩
        have hnexy : x ≠ y := by
          have hnd : (mbsValueStrs col.cells).Nodup := List.nodup_dedup _
          rw [hxy] at hnd
          simpa using hnd
        rcases total_of strle x y with hxyle | hyxle
        · rw [mbs_branch3 col hA hB h2 hnexy hxyle (by rw [hxy]; simp)]
        · rw [mbs_branch3 col hA hB h2 (Ne.symm hnexy) hyxle
            (by rw [hxy]; simp [Finset.pair_comm])]
  · intro hA
    constructor
    · exact mapsAt_of_map col _ _ (by rw [mbs_branch1 col hA]) "No" 0 (by decide)
    · exact mapsAt_of_map col _ _ (by rw [mbs_branch1 col hA]) "Yes" 1 (by decide)
  · intro hA hB
    constructor
    · exact mapsAt_of_map col _ _ (by rw [mbs_branch2 col hA hB]) "Female" 0 (by decide)
    · exact mapsAt_of_map col _ _ (by rw [mbs_branch2 col hA hB]) "Male" 1 (by decide)
  · intro hA hB a b hne hab hfs
    constructor
    · refine mapsAt_of_map col _ _ (by rw [mbs_branch3 col hA hB h2 hne hab hfs]) a 0 ?_
      simp [cellToStr, pairDict, cellOfOpt]
    · refine mapsAt_of_map col _ _ (by rw [mbs_branch3 col hA hB h2 hne hab hfs]) b 1 ?_
      simp [cellToStr, pairDict, cellOfOpt, hne.symm]

/-- Witness for C1 at the generic-fallback column `["B","A"]`:
the lexicographically smaller value `"A"` (row 1) encodes to 0. -/
theorem map_binary_series_rules_witness :
    (map_binary_series colABW).cells.getD 1 Cell.na = Cell.int 0 :=
  ((map_binary_series_rules colABW (by decide)).2.2.2.2 (by decide) (by decide)
    "A" "B" (by decide) (by decide) (by decide)).1 1 (by decide)

end Churn

namespace Churn

/-! ### C2 — indicator expansion -/

theorem lexLe_refl (l : List Char) : lexLe l l = true := by
  induction l with
  | nil => rfl
  | cons a as ih => rw [lexLe_cons_iff]; exact Or.inr ⟨rfl, ih⟩

theorem strle_refl (a : String) : strle a a := lexLe_refl a.data

theorem sum_indicator_nodup (l : List String) (hnd : l.Nodup) (c : Cell) :
    (l.map (fun cat => if c = Cell.str cat then (1 : Int) else 0)).sum =
      if ∃ cat ∈ l, c = Cell.str cat then 1 else 0 := by
  induction l with
  | nil => simp
  | cons a t ih =>
    have hnd2 : t.Nodup := (List.nodup_cons.mp hnd).2
    have hat : a ∉ t := (List.nodup_cons.mp hnd).1
    by_cases hca : c = Cell.str a
    · have hnot : ¬∃ cat ∈ t, c = Cell.str cat := by
        rintro ⟨cat, hcat, hc2⟩
        rw [hca] at hc2
        have heq : a = cat := by simpa using hc2
        exact hat (heq ▸ hcat)
      rw [List.map_cons, List.sum_cons, if_pos hca, ih hnd2, if_neg hnot,
        if_pos ⟨a, List.mem_cons_self a t, hca⟩]
      norm_num
    · have hiff : (∃ cat ∈ a :: t, c = Cell.str cat) ↔ ∃ cat ∈ t, c = Cell.str cat := by
        constructor
        · rintro ⟨cat, hcat, hc2⟩
          rcases List.mem_cons.mp hcat with h | h
          · exact absurd (h ▸ hc2) hca
          · exact ⟨cat, h, hc2⟩
        · rintro ⟨cat, hcat, hc2⟩
          exact ⟨cat, List.mem_cons_of_mem _ hcat, hc2⟩
      rw [List.map_cons, List.sum_cons, if_neg hca, ih hnd2, if_congr hiff rfl rfl,
        zero_add]

theorem indicator_cell_getD (cells : List Cell) (cat : String) (i : Nat) :
    cellInt ((cells.map (fun c => Cell.int (if c = Cell.str cat then 1 else 0))).getD i
        Cell.na) =
      if cells.getD i Cell.na = Cell.str cat then 1 else 0 := by
  by_cases hlt : i < cells.length
  · rw [List.getD_eq_getElem?_getD, List.getElem?_map, List.getElem?_eq_getElem hlt,
      List.getD_eq_getElem _ _ hlt]
    simp [cellInt]
  · have hge : cells.length ≤ i := le_of_not_lt hlt
    rw [List.getD_eq_getElem?_getD, List.getElem?_eq_none (by simpa using hge),
      List.getD_eq_getElem?_getD, List.getElem?_eq_none hge]
    simp [cellInt]

theorem categoriesOf_nodup (cells : List Cell) : (categoriesOf cells).Nodup :=
  ((List.perm_insertionSort strle _).nodup_iff).mpr (List.nodup_dedup _)

theorem dummyRowSum_eq (col : Col) (i : Nat) :
    dummyRowSum (dummiesOf col) i =
      if ∃ cat ∈ (categoriesOf col.cells).drop 1,
          col.cells.getD i Cell.na = Cell.str cat then 1 else 0 := by
  unfold dummyRowSum dummiesOf
  rw [List.map_map]
  have hmapeq :
      ((categoriesOf col.cells).drop 1).map
          ((fun d => cellInt (d.cells.getD i Cell.na)) ∘ (fun cat =>
            (⟨col.name ++ "_" ++ cat, Dtype.uint8,
              col.cells.map (fun c => Cell.int (if c = Cell.str cat then 1 else 0))⟩ : Col))) =
        ((categoriesOf col.cells).drop 1).map (fun cat =>
          if col.cells.getD i Cell.na = Cell.str cat then (1 : Int) else 0) := by
    apply List.map_congr_left
    intro cat _
    exact indicator_cell_getD col.cells cat i
  rw [hmapeq,
    sum_indicator_nodup _ ((categoriesOf_nodup col.cells).sublist (List.drop_sublist _ _))]

/-- C2 counterexample: on the column `["A","B","C",missing]` the
expansion drops category `"A"`, the missing row's indicator sum is 0,
yet that row's original value is not the dropped category — the
claimed "sum is 0 exactly when the value equals the dropped category"
fails on missing entries. -/
theorem dummies_missing_cex :
    categoriesOf colC2X.cells = ["A", "B", "C"] ∧
    (dummiesOf colC2X).length = 2 ∧
    ¬(dummyRowSum (dummiesOf colC2X) 3 = 0 →
        colC2X.cells.getD 3 Cell.na =
          Cell.str ((categoriesOf colC2X.cells).getD 0 "")) := by
  refine ⟨by decide, by decide, by decide⟩

/-- C2 (amended): a multi-categorical column with `k` distinct
non-missing categories expands to exactly `k − 1` indicator columns;
the dropped reference category is the first in ascending order; each
row's indicator sum is at most 1, and it is 0 exactly when the row's
original value equals the dropped category **or is missing**. -/
theorem dummies_props (col : Col) (hwf : col.cells.all isObjCellB = true)
    (hk : 2 < (categoriesOf col.cells).length) :
    (dummiesOf col).length = (categoriesOf col.cells).length - 1 ∧
    (∀ v ∈ categoriesOf col.cells, strle ((categoriesOf col.cells).getD 0 "") v) ∧
    (∀ i, dummyRowSum (dummiesOf col) i ≤ 1) ∧
    (∀ i, dummyRowSum (dummiesOf col) i = 0 ↔
      (col.cells.getD i Cell.na = Cell.str ((categoriesOf col.cells).getD 0 "") ∨
        col.cells.getD i Cell.na = Cell.na)) := by
  obtain ⟨c0, rest, hc⟩ : ∃ c0 rest, categoriesOf col.cells = c0 :: rest := by
    cases hcs : categoriesOf col.cells with
    | nil => rw [hcs] at hk; simp at hk
    | cons c0 rest => exact ⟨c0, rest, rfl⟩
  have hsorted : List.Sorted strle (categoriesOf col.cells) :=
    List.sorted_insertionSort strle _
  have hnd : (categoriesOf col.cells).Nodup := categoriesOf_nodup col.cells
  refine ⟨?_, ?_, ?_, ?_⟩
  · unfold dummiesOf
    rw [List.length_map, List.length_drop]
  · intro v hv
    rw [hc] at hv ⊢
    rw [List.getD_cons_zero]
    rcases List.mem_cons.mp hv with h | h
    · rw [h]
      exact strle_refl c0
    · exact List.rel_of_sorted_cons (hc ▸ hsorted) v h
  · intro i
    rw [dummyRowSum_eq]
    split
    · exact le_refl 1
    · norm_num
  · intro i
    rw [dummyRowSum_eq]
    by_cases hlt : i < col.cells.length
    · have hmem : col.cells.getD i Cell.na ∈ col.cells := by
        rw [List.getD_eq_getElem _ _ hlt]
        exact List.getElem_mem hlt
      have hobj : isObjCellB (col.cells.getD i Cell.na) = true :=
        List.all_eq_true.mp hwf _ hmem
      cases hcell : col.cells.getD i Cell.na with
      | str s =>
        have hs : s ∈ categoriesOf col.cells := by
          unfold categoriesOf
          rw [List.Perm.mem_iff (List.perm_insertionSort strle _), List.mem_dedup]
          exact List.mem_filterMap.mpr ⟨Cell.str s, hcell ▸ hmem, rfl⟩
        have hdropiff : (∃ cat ∈ (categoriesOf col.cells).drop 1,
            Cell.str s = Cell.str cat) ↔ s ∈ rest := by
          rw [hc]
          constructor
          · rintro ⟨cat, hcat, hc2⟩
            have : s = cat := by simpa using hc2
            simpa [this] using hcat
          · intro hrest
            exact ⟨s, by simpa using hrest, rfl⟩
        rw [hc] at hs hnd
        have hc0rest : s ∈ rest ↔ ¬s = c0 := by
          constructor
          · intro hrest heq
            exact (List.nodup_cons.mp hnd).1 (heq ▸ hrest)
          · intro hne
            rcases List.mem_cons.mp hs with h | h
            · exact absurd h hne
            · exact h
        constructor
        · intro hsum
          have hnotin : ¬∃ cat ∈ (categoriesOf col.cells).drop 1,
              Cell.str s = Cell.str cat := by
            intro hex
            rw [if_pos hex] at hsum
            omega
          have hseq : s = c0 := by
            by_contra hne
            exact hnotin (hdropiff.mpr (hc0rest.mpr hne))
          left
          rw [hc, List.getD_cons_zero, hseq]
        · intro hor
          rcases hor with h | h
          · have hnot2 : ¬∃ cat ∈ (categoriesOf col.cells).drop 1,
                Cell.str s = Cell.str cat := by
              intro hex
              have hs_rest : s ∈ rest := hdropiff.mp hex
              have hseq : s = c0 := by
                rw [hc, List.getD_cons_zero] at h
                simpa using h
              exact (hc0rest.mp hs_rest) hseq
            rw [if_neg hnot2]
          · simp at h
      | na =>
        simp
      | int n => rw [hcell] at hobj; simp [isObjCellB] at hobj
      | rat q => rw [hcell] at hobj; simp [isObjCellB] at hobj
      | bool b => rw [hcell] at hobj; simp [isObjCellB] at hobj
    · have hge : col.cells.length ≤ i := le_of_not_lt hlt
      rw [List.getD_eq_getElem?_getD, List.getElem?_eq_none hge]
      simp

/-- Witness for C2's amended theorem at the spec's `Contract`
scenario column: three categories expand to exactly two indicator
columns. -/
theorem dummies_props_witness :
    (dummiesOf colC2W).length = (categoriesOf colC2W.cells).length - 1 :=
  (dummies_props colC2W (by decide) (by decide)).1

end Churn

namespace Churn

/-! ### C3 — missing values in a binary column -/

/-- C3: the failing run.  On a binary column with a missing entry,
line 75's `astype(str)` turns the missing entry into the literal
string `"nan"`; `_map_binary_series` then observes three distinct
values and returns the column unchanged, and the step-6 cleanup skips
it because its dtype is not integer.  The output column is still
textual, and the formerly missing entry equals the string `"nan"`,
not the integer 0. -/
theorem binary_missing_unencoded :
    build_features dfC3 "Churn" =
      [⟨"Partner", Dtype.object, [Cell.str "Yes", Cell.str "nan", Cell.str "No"]⟩] := by
  decide

/-! ### C5 — preservation of the target column -/

theorem map_binary_series_name (col : Col) : (map_binary_series col).name = col.name := by
  unfold map_binary_series
  dsimp only
  split_ifs <;> first | rfl | (split <;> rfl)

theorem find?_name_map (l : List Col) (F : Col → Col) (hF : ∀ c, (F c).name = c.name)
    (n : String) :
    (l.map F).find? (fun c => decide (c.name = n)) =
      Option.map F (l.find? (fun c => decide (c.name = n))) := by
  rw [List.find?_map]
  have hfun : ((fun c => decide (c.name = n)) ∘ F) = (fun c : Col => decide (c.name = n)) := by
    funext c
    show decide ((F c).name = n) = decide (c.name = n)
    rw [hF c]
  rw [hfun]

theorem find?_filter_of_imp (l : List Col) (p q : Col → Bool)
    (h : ∀ c, p c = true → q c = true) :
    (l.filter q).find? p = l.find? p := by
  induction l with
  | nil => rfl
  | cons a t ih =>
    by_cases hq : q a = true
    · rw [List.filter_cons_of_pos hq]
      by_cases hp : p a = true
      · rw [List.find?_cons_of_pos _ hp, List.find?_cons_of_pos _ hp]
      · rw [List.find?_cons_of_neg _ hp, List.find?_cons_of_neg _ hp, ih]
    · have hp : ¬p a = true := fun hpp => hq (h a hpp)
      rw [List.filter_cons_of_neg (by simpa using hq),
        List.find?_cons_of_neg _ hp, ih]

theorem find?_append_some {l1 l2 : List Col} {p : Col → Bool} {a : Col}
    (h : l1.find? p = some a) : (l1 ++ l2).find? p = some a := by
  rw [List.find?_append, h]
  rfl

theorem target_not_mem_multiNames (target : String) (df : DataFrame) :
    target ∉ multiNames target df := by
  intro hmem
  unfold multiNames at hmem
  rcases List.mem_map.mp hmem with ⟨c, hc, hcn⟩
  have hb : isMultiColB target c = true := (List.mem_filter.mp hc).2
  unfold isMultiColB at hb
  simp only [Bool.and_eq_true, decide_eq_true_eq] at hb
  exact hb.1.2 (by rw [hcn])

theorem target_not_mem_binaryNames (target : String) (df : DataFrame) :
    target ∉ binaryNames target df := by
  intro hmem
  unfold binaryNames at hmem
  rcases List.mem_map.mp hmem with ⟨c, hc, hcn⟩
  have hb : isBinaryColB target c = true := (List.mem_filter.mp hc).2
  unfold isBinaryColB at hb
  simp only [Bool.and_eq_true, decide_eq_true_eq] at hb
  exact hb.1.2 (by rw [hcn])

/-- C5 counterexample: a dataframe whose target column `"Churn"` is
boolean.  The boolean-normalization step rewrites it to 0/1 integers,
so the target's values are not byte-identical after encoding. -/
theorem bool_target_modified_cex :
    build_features dfC5 "Churn" = [⟨"Churn", Dtype.int64, [Cell.int 1, Cell.int 0]⟩] ∧
    build_features dfC5 "Churn" ≠ dfC5 := by
  exact ⟨by decide, by decide⟩

/-- C5 (amended): for every dataset containing the named target
column, provided that column is not of boolean dtype, the encoding
pipeline neither modifies nor drops nor renames it: looking the
target name up in the output yields the column unchanged (same name,
dtype and cells).  (A boolean target is the one exception: step 4
converts every boolean column, the target included, to 0/1 integers.) -/
theorem target_preserved (df : DataFrame) (target : String) (col : Col)
    (h : df.find? (fun c => decide (c.name = target)) = some col)
    (hdt : col.dtype ≠ Dtype.boolDt) :
    (build_features df target).find? (fun c => decide (c.name = target)) = some col := by
  have htname : col.name = target := by
    have hp := List.find?_some h
    simpa using hp
  have hbinF : isBinaryColB target col = false := by
    unfold isBinaryColB
    simp [htname]
  have h3 : (step3 target df).find? (fun c => decide (c.name = target)) = some col := by
    unfold step3
    rw [find?_name_map _ _ (fun c => by
      by_cases hb : isBinaryColB target c = true
      · simp only [hb, if_true]
        rw [map_binary_series_name]
        rfl
      · simp only [Bool.not_eq_true] at hb
        simp [hb]) target, h]
    simp [hbinF]
  have h4 : (step4 (step3 target df)).find? (fun c => decide (c.name = target)) =
      some col := by
    unfold step4
    rw [find?_name_map _ _ (fun c => by
      by_cases hb : c.dtype = Dtype.boolDt
      · simp [hb]
      · simp [hb]) target, h3]
    simp [hdt]
  have h5 : (step5 (multiNames target df) (step4 (step3 target df))).find?
      (fun c => decide (c.name = target)) = some col := by
    unfold step5
    apply find?_append_some
    rw [find?_filter_of_imp _ _ _ (fun c hc => by
      have hcn : c.name = target := by simpa using hc
      simp [hcn, target_not_mem_multiNames target df])]
    exact h4
  unfold build_features step6
  rw [find?_name_map _ _ (fun c => by
    by_cases hb : c.name ∈ binaryNames target df ∧ isIntegerDtype c.dtype = true
    · rw [if_pos hb]
      rfl
    · rw [if_neg hb]) target, h5]
  rw [Option.map_some', if_neg (fun hb => by
    rw [htname] at hb
    exact target_not_mem_binaryNames target df hb.1)]

/-- Witness for C5's amended theorem: a textual two-valued target
column named `"Churn"` survives the pipeline untouched. -/
theorem target_preserved_witness :
    (build_features dfC5W "Churn").find? (fun c => decide (c.name = "Churn")) =
      some ⟨"Churn", Dtype.object, [Cell.str "Yes", Cell.str "No"]⟩ :=
  target_preserved dfC5W "Churn" ⟨"Churn", Dtype.object, [Cell.str "Yes", Cell.str "No"]⟩
    (by decide) (by decide)

end Churn

namespace Churn

/-! ### C6 — column classification -/

/-- C6: classification counts distinct non-missing values only: a
textual non-target column with exactly 2 of them is classified
binary, with more than 2 multi, and with fewer than 2 it is neither —
and such a column reaches the output unencoded, exactly as it was. -/
theorem classification_cases (df : DataFrame) (target : String) (col : Col)
    (hmem : col ∈ df) (hnd : (df.map Col.name).Nodup)
    (hobj : col.dtype = Dtype.object) (hname : col.name ≠ target) :
    (nuniqueDropna col.cells = 2 → col.name ∈ binaryNames target df) ∧
    (2 < nuniqueDropna col.cells → col.name ∈ multiNames target df) ∧
    (nuniqueDropna col.cells < 2 →
      col.name ∉ binaryNames target df ∧ col.name ∉ multiNames target df ∧
      col ∈ build_features df target) := by
  refine ⟨?_, ?_, ?_⟩
  · intro h2
    unfold binaryNames
    exact List.mem_map_of_mem Col.name
      (List.mem_filter.mpr ⟨hmem, by unfold isBinaryColB; simp [hobj, hname, h2]⟩)
  · intro hgt
    unfold multiNames
    exact List.mem_map_of_mem Col.name
      (List.mem_filter.mpr ⟨hmem, by unfold isMultiColB; simp [hobj, hname, hgt]⟩)
  · intro hlt
    have hnotbin : col.name ∉ binaryNames target df := by
      intro hm
      unfold binaryNames at hm
      rcases List.mem_map.mp hm with ⟨c, hc, hcn⟩
      have hcmem : c ∈ df := (List.mem_filter.mp hc).1
      have hcb : isBinaryColB target c = true := (List.mem_filter.mp hc).2
      have hceq : c = col := List.inj_on_of_nodup_map hnd hcmem hmem hcn
      rw [hceq] at hcb
      unfold isBinaryColB at hcb
      simp only [Bool.and_eq_true, decide_eq_true_eq] at hcb
      omega
    have hnotmulti : col.name ∉ multiNames target df := by
      intro hm
      unfold multiNames at hm
      rcases List.mem_map.mp hm with ⟨c, hc, hcn⟩
      have hcmem : c ∈ df := (List.mem_filter.mp hc).1
      have hcb : isMultiColB target c = true := (List.mem_filter.mp hc).2
      have hceq : c = col := List.inj_on_of_nodup_map hnd hcmem hmem hcn
      rw [hceq] at hcb
      unfold isMultiColB at hcb
      simp only [Bool.and_eq_true, decide_eq_true_eq] at hcb
      omega
    refine ⟨hnotbin, hnotmulti, ?_⟩
    have hbF : ¬isBinaryColB target col = true := by
      unfold isBinaryColB
      simp only [Bool.and_eq_true, decide_eq_true_eq]
      rintro ⟨-, hn2⟩
      omega
    have h3 : col ∈ step3 target df := by
      unfold step3
      exact List.mem_map.mpr ⟨col, hmem, if_neg hbF⟩
    have h4 : col ∈ step4 (step3 target df) := by
      unfold step4
      exact List.mem_map.mpr ⟨col, h3,
        if_neg (by intro hcontra; rw [hobj] at hcontra; cases hcontra)⟩
    have h5 : col ∈ step5 (multiNames target df) (step4 (step3 target df)) := by
      unfold step5
      apply List.mem_append_left
      exact List.mem_filter.mpr ⟨h4, by simpa using hnotmulti⟩
    unfold build_features step6
    exact List.mem_map.mpr ⟨col, h5, if_neg (fun hb => hnotbin hb.1)⟩

/-- Witness for C6: a constant textual column passes through the
pipeline as-is. -/
theorem classification_cases_witness :
    (⟨"cID", Dtype.object, [Cell.str "x", Cell.str "x"]⟩ : Col) ∈
      build_features dfC6W "Churn" :=
  ((classification_cases dfC6W "Churn" ⟨"cID", Dtype.object, [Cell.str "x", Cell.str "x"]⟩
    (by decide) (by decide) (by decide) (by decide)).2.2 (by decide)).2.2

end Churn

namespace Churn

/-! ### C7 — coercion of the charges field never fails -/

/-- C7: on any schema-complete dataframe whose textual `TotalCharges`
column holds arbitrary strings, validation runs to completion (the
coercion never raises), and each string cell is coerced to its parsed
numeric value, with every unparsable string treated as missing and
then imputed to zero. -/
theorem total_charges_coerce (df : DataFrame) (tc : Col)
    (h : requiredOk df = true) (_htc : colFind df "TotalCharges" = some tc) :
    (validate_telco_dataset df).isSome = true ∧
    (∀ i s, tc.cells.getD i Cell.na = Cell.str s →
      (fixTotalCharges tc.cells).getD i (Cell.rat 0) =
        Cell.rat ((parse_numeric (pyStrip s)).getD 0)) ∧
    (∀ i s, tc.cells.getD i Cell.na = Cell.str s → parse_numeric (pyStrip s) = none →
      (fixTotalCharges tc.cells).getD i (Cell.rat 0) = Cell.rat 0) := by
  have hpoint : ∀ i s, tc.cells.getD i Cell.na = Cell.str s →
      (fixTotalCharges tc.cells).getD i (Cell.rat 0) =
        Cell.rat ((parse_numeric (pyStrip s)).getD 0) := by
    intro i s hi
    have hlt : i < tc.cells.length := by
      by_contra hge
      rw [List.getD_eq_getElem?_getD, List.getElem?_eq_none (by omega)] at hi
      simp at hi
    have hcell : tc.cells[i] = Cell.str s := by
      rw [List.getD_eq_getElem _ _ hlt] at hi
      exact hi
    unfold fixTotalCharges
    rw [List.getD_eq_getElem?_getD, List.getElem?_map, List.getElem?_eq_getElem hlt,
      hcell]
    cases hp : parse_numeric (pyStrip s) with
    | none => simp [fixCell, hp]
    | some q => simp [fixCell, hp]
  refine ⟨?_, hpoint, ?_⟩
  · unfold validate_telco_dataset validate_run
    rw [if_pos h]
    rfl
  · intro i s hi hnone
    rw [hpoint i s hi, hnone]
    rfl

/-- Witness for C7 at the valid Telco dataframe: validation completes. -/
theorem total_charges_coerce_witness :
    (validate_telco_dataset dfVW).isSome = true :=
  (total_charges_coerce dfVW ⟨"TotalCharges", Dtype.object, [Cell.str " 250.5 "]⟩
    (by decide) (by decide)).1

/-! ### C8 — the validator's return contract -/

/-- C8 counterexample: on the empty dataframe the validator does not
return a (bool, list) pair — line 68's `df["TotalCharges"]` raises a
`KeyError` (modelled as `none`), so "for every input dataset ...
never raised" is false. -/
theorem validate_raises_cex : validate_telco_dataset ([] : DataFrame) = none := by
  decide

/-- C8 (amended): on every dataset with the full required schema (all
value-checked columns present, range-checked columns numeric,
`TotalCharges` textual) the validator returns a pair of a pass/fail
boolean and a list of violated-rule identifiers: the boolean is true
exactly when every check passes, the list carries the identifier of
each failed check and nothing else, and it is empty exactly when
validation passes.  On datasets outside that schema the function can
instead raise (see the counterexample). -/
theorem validate_returns_pair (df : DataFrame) (h : requiredOk df = true) :
    ∃ b ids, validate_telco_dataset df = some (b, ids) ∧
      (b = true ↔ ∀ chk ∈ checkList df, chk.2 = true) ∧
      (ids = [] ↔ b = true) ∧
      (∀ chk ∈ checkList df, chk.2 = false → chk.1 ∈ ids) ∧
      (∀ x ∈ ids, ∃ chk ∈ checkList df, chk.2 = false ∧ chk.1 = x) := by
  refine ⟨(checkList df).all (fun r => r.2),
    ((checkList df).filter (fun r => !r.2)).map (fun r => r.1), ?_, ?_, ?_, ?_, ?_⟩
  · unfold validate_telco_dataset validate_run
    rw [if_pos h]
    rfl
  · exact List.all_eq_true
  · constructor
    · intro hnil
      have hfil : (checkList df).filter (fun r => !r.2) = [] :=
        List.map_eq_nil_iff.mp hnil
      rw [List.all_eq_true]
      intro x hx
      by_contra hxf
      have hxmem : x ∈ (checkList df).filter (fun r => !r.2) :=
        List.mem_filter.mpr ⟨hx, by
          rw [Bool.not_eq_true] at hxf
          simp [hxf]⟩
      rw [hfil] at hxmem
      cases hxmem
    · intro hall
      rw [List.map_eq_nil_iff, List.filter_eq_nil_iff]
      intro a ha
      have := List.all_eq_true.mp hall a ha
      simp [this]
  · intro chk hchk hfail
    exact List.mem_map.mpr ⟨chk, List.mem_filter.mpr ⟨hchk, by simp [hfail]⟩, rfl⟩
  · intro x hx
    rcases List.mem_map.mp hx with ⟨chk, hchk, hxeq⟩
    have h1 := List.mem_filter.mp hchk
    exact ⟨chk, h1.1, by simpa using h1.2, hxeq⟩

/-- Witness for C8's amended theorem at the valid Telco dataframe. -/
theorem validate_returns_pair_witness :
    ∃ b ids, validate_telco_dataset dfVW = some (b, ids) := by
  obtain ⟨b, ids, h1, -⟩ := validate_returns_pair dfVW (by decide)
  exact ⟨b, ids, h1⟩

/-! ### C9 and C10 — mutation of the caller's dataframe -/

/-- C9: `build_features` never mutates its argument.  Line 47 rebinds
the local name to a copy before any in-place column assignment, so
after the call the caller's object is exactly what it was, while the
local value is the pipeline output. -/
theorem build_features_no_mutation (df : DataFrame) (target : String) :
    (build_features_py df target).caller = df ∧
    (build_features_py df target).df = build_features df target := by
  constructor <;> rfl

/-- C10: `validate_telco_dataset` mutates the caller's dataframe in
place: it takes no copy, and lines 68-71 assign the cleaned
`TotalCharges` column through the caller's reference.  Whenever the
function returns (pass or fail alike — the conclusion does not depend
on the boolean), the caller's object equals `mutateTC df`, whose
`TotalCharges` column is the stripped, coerced-to-float column with
unparsable entries replaced by 0. -/
theorem validate_mutates_argument (df : DataFrame) (tc : Col)
    (h : requiredOk df = true) (htc : colFind df "TotalCharges" = some tc) :
    ∃ b ids s, validate_run df = some ((b, ids), s) ∧
      s.caller = mutateTC df ∧
      colFind s.caller "TotalCharges" =
        some ⟨"TotalCharges", Dtype.float64, fixTotalCharges tc.cells⟩ := by
  have hname : tc.name = "TotalCharges" := by
    have hp := List.find?_some htc
    simpa using hp
  refine ⟨(checkList df).all (fun r => r.2),
    ((checkList df).filter (fun r => !r.2)).map (fun r => r.1),
    inplace mutateTC ⟨df, df, true⟩, ?_, rfl, ?_⟩
  · unfold validate_run
    rw [if_pos h]
  · show colFind (mutateTC df) "TotalCharges" = _
    unfold colFind mutateTC
    rw [find?_name_map _ _ (fun c => by
      by_cases hc : c.name = "TotalCharges"
      · rw [if_pos hc]
      · rw [if_neg hc]) "TotalCharges"]
    unfold colFind at htc
    rw [htc, Option.map_some', if_pos hname, hname]

/-- Witness for C10 at the valid Telco dataframe. -/
theorem validate_mutates_argument_witness :
    ∃ b ids s, validate_run dfVW = some ((b, ids), s) ∧
      s.caller = mutateTC dfVW ∧
      colFind s.caller "TotalCharges" =
        some ⟨"TotalCharges", Dtype.float64, fixTotalCharges [Cell.str " 250.5 "]⟩ :=
  validate_mutates_argument dfVW ⟨"TotalCharges", Dtype.object, [Cell.str " 250.5 "]⟩
    (by decide) (by decide)

end Churn

namespace Churn

/-! ### C4 — permutation equivariance of the whole pipeline -/

theorem range_map_getD (l : List Cell) :
    (List.range l.length).map (fun i => l.getD i Cell.na) = l := by
  apply List.ext_getElem
  · simp
  · intro i h1 h2
    simp only [List.getElem_map, List.getElem_range]
    rw [List.getD_eq_getElem _ _ h2]

theorem applyPerm_perm {p : List ℕ} {n : ℕ} (hp : p.Perm (List.range n)) (l : List Cell)
    (hl : l.length = n) : (applyPerm p l).Perm l := by
  have h1 : (applyPerm p l).Perm ((List.range n).map (fun i => l.getD i Cell.na)) :=
    List.Perm.map _ hp
  rw [← hl, range_map_getD] at h1
  exact h1

theorem applyPerm_map {p : List ℕ} {n : ℕ} (hp : p.Perm (List.range n)) (l : List Cell)
    (hl : l.length = n) (f : Cell → Cell) :
    applyPerm p (l.map f) = (applyPerm p l).map f := by
  unfold applyPerm
  rw [List.map_map]
  apply List.map_congr_left
  intro i hi
  have hilt : i < l.length := by
    rw [hl]
    exact List.mem_range.mp (hp.mem_iff.mp hi)
  show (l.map f).getD i Cell.na = f (l.getD i Cell.na)
  rw [List.getD_eq_getElem?_getD, List.getElem?_map, List.getElem?_eq_getElem hilt,
    List.getD_eq_getElem _ _ hilt]
  rfl

theorem mbsValueStrs_perm {l1 l2 : List Cell} (h : l1.Perm l2) :
    (mbsValueStrs l1).Perm (mbsValueStrs l2) := by
  unfold mbsValueStrs
  exact (List.Perm.map cellToStr ((h.filter _).dedup)).dedup

theorem insertionSort_eq_of_perm {l1 l2 : List String} (h : l1.Perm l2) :
    List.insertionSort strle l1 = List.insertionSort strle l2 :=
  List.eq_of_perm_of_sorted
    ((List.perm_insertionSort strle l1).trans (h.trans
      (List.perm_insertionSort strle l2).symm))
    (List.sorted_insertionSort strle l1) (List.sorted_insertionSort strle l2)

theorem nuniqueDropna_perm {l1 l2 : List Cell} (h : l1.Perm l2) :
    nuniqueDropna l1 = nuniqueDropna l2 := ((h.filter _).dedup).length_eq

theorem mbs_fallthrough (col : Col)
    (h1 : (mbsValueStrs col.cells).toFinset ≠ ({"Yes", "No"} : Finset String))
    (h2 : (mbsValueStrs col.cells).toFinset ≠ ({"Male", "Female"} : Finset String))
    (h3 : (mbsValueStrs col.cells).length ≠ 2) :
    map_binary_series col = col := by
  unfold map_binary_series
  dsimp only
  rw [if_neg h1, if_neg h2, if_neg h3]

theorem map_binary_series_permCol {p : List ℕ} {n : ℕ} (hp : p.Perm (List.range n))
    (col : Col) (hl : col.cells.length = n) :
    map_binary_series (permCol p col) = permCol p (map_binary_series col) := by
  have hperm : (applyPerm p col.cells).Perm col.cells := applyPerm_perm hp _ hl
  have hv : (mbsValueStrs (permCol p col).cells).Perm (mbsValueStrs col.cells) :=
    mbsValueStrs_perm hperm
  have hfs : (mbsValueStrs (permCol p col).cells).toFinset =
      (mbsValueStrs col.cells).toFinset := List.toFinset_eq_of_perm _ _ hv
  have hlen : (mbsValueStrs (permCol p col).cells).length =
      (mbsValueStrs col.cells).length := hv.length_eq
  by_cases hA : (mbsValueStrs col.cells).toFinset = ({"Yes", "No"} : Finset String)
  · rw [mbs_branch1 col hA, mbs_branch1 (permCol p col) (hfs.trans hA)]
    show (⟨col.name, Dtype.int64Nullable,
      (applyPerm p col.cells).map (mapDict (pairDict "No" "Yes"))⟩ : Col) = _
    unfold permCol
    dsimp only
    rw [applyPerm_map hp col.cells hl]
  · by_cases hB : (mbsValueStrs col.cells).toFinset = ({"Male", "Female"} : Finset String)
    · rw [mbs_branch2 col hA hB,
        mbs_branch2 (permCol p col) (fun hcontra => hA (hfs.symm.trans hcontra))
          (hfs.trans hB)]
      show (⟨col.name, Dtype.int64Nullable,
        (applyPerm p col.cells).map (mapDict (pairDict "Female" "Male"))⟩ : Col) = _
      unfold permCol
      dsimp only
      rw [applyPerm_map hp col.cells hl]
    · by_cases hC : (mbsValueStrs col.cells).length = 2
      · rcases List.length_eq_two.mp hC with ⟨x, y, hxy⟩
        have hnexy : x ≠ y := by
          have hnd : (mbsValueStrs col.cells).Nodup := List.nodup_dedup _
          rw [hxy] at hnd
          simpa using hnd
        have hcfs : (mbsValueStrs col.cells).toFinset = {x, y} := by
          rw [hxy]
          simp
        rcases total_of strle x y with hxyle | hyxle
        · rw [mbs_branch3 col hA hB hC hnexy hxyle hcfs,
            mbs_branch3 (permCol p col) (fun hcontra => hA (hfs.symm.trans hcontra))
              (fun hcontra => hB (hfs.symm.trans hcontra)) (hlen.trans hC) hnexy hxyle
              (hfs.trans hcfs)]
          show (⟨col.name, Dtype.int64Nullable, (applyPerm p col.cells).map
            (fun c => cellOfOpt (pairDict x y (cellToStr c)))⟩ : Col) = _
          unfold permCol
          dsimp only
          rw [applyPerm_map hp col.cells hl]
        · have hcfs2 : (mbsValueStrs col.cells).toFinset = {y, x} := by
            rw [hcfs]
            exact Finset.pair_comm x y
          rw [mbs_branch3 col hA hB hC (Ne.symm hnexy) hyxle hcfs2,
            mbs_branch3 (permCol p col) (fun hcontra => hA (hfs.symm.trans hcontra))
              (fun hcontra => hB (hfs.symm.trans hcontra)) (hlen.trans hC)
              (Ne.symm hnexy) hyxle (hfs.trans hcfs2)]
          show (⟨col.name, Dtype.int64Nullable, (applyPerm p col.cells).map
            (fun c => cellOfOpt (pairDict y x (cellToStr c)))⟩ : Col) = _
          unfold permCol
          dsimp only
          rw [applyPerm_map hp col.cells hl]
      · rw [mbs_fallthrough col hA hB hC,
          mbs_fallthrough (permCol p col) (fun hcontra => hA (hfs.symm.trans hcontra))
            (fun hcontra => hB (hfs.symm.trans hcontra))
            (fun hcontra => hC (hlen.symm.trans hcontra))]

end Churn

namespace Churn

theorem astype_str_permCol {p : List ℕ} {n : ℕ} (hp : p.Perm (List.range n))
    (col : Col) (hl : col.cells.length = n) :
    astype_str (permCol p col) = permCol p (astype_str col) := by
  unfold astype_str permCol
  dsimp only
  rw [applyPerm_map hp col.cells hl]

theorem isBinaryColB_permCol (target : String) {p : List ℕ} {n : ℕ}
    (hp : p.Perm (List.range n)) (col : Col) (hl : col.cells.length = n) :
    isBinaryColB target (permCol p col) = isBinaryColB target col := by
  unfold isBinaryColB permCol
  dsimp only
  rw [nuniqueDropna_perm (applyPerm_perm hp _ hl)]

theorem isMultiColB_permCol (target : String) {p : List ℕ} {n : ℕ}
    (hp : p.Perm (List.range n)) (col : Col) (hl : col.cells.length = n) :
    isMultiColB target (permCol p col) = isMultiColB target col := by
  unfold isMultiColB permCol
  dsimp only
  rw [nuniqueDropna_perm (applyPerm_perm hp _ hl)]

theorem binaryNames_permuteDF (target : String) {p : List ℕ} {n : ℕ}
    (hp : p.Perm (List.range n)) (df : DataFrame)
    (hdf : ∀ col ∈ df, col.cells.length = n) :
    binaryNames target (permuteDF p df) = binaryNames target df := by
  unfold binaryNames permuteDF
  have hfil : List.filter (isBinaryColB target ∘ permCol p) df =
      List.filter (isBinaryColB target) df :=
    List.filter_congr (fun x hx => isBinaryColB_permCol target hp x (hdf x hx))
  rw [List.filter_map, hfil, List.map_map]
  apply List.map_congr_left
  intro x _
  rfl

theorem multiNames_permuteDF (target : String) {p : List ℕ} {n : ℕ}
    (hp : p.Perm (List.range n)) (df : DataFrame)
    (hdf : ∀ col ∈ df, col.cells.length = n) :
    multiNames target (permuteDF p df) = multiNames target df := by
  unfold multiNames permuteDF
  have hfil : List.filter (isMultiColB target ∘ permCol p) df =
      List.filter (isMultiColB target) df :=
    List.filter_congr (fun x hx => isMultiColB_permCol target hp x (hdf x hx))
  rw [List.filter_map, hfil, List.map_map]
  apply List.map_congr_left
  intro x _
  rfl

theorem step3_perm {p : List ℕ} {n : ℕ} (hp : p.Perm (List.range n)) (target : String)
    (df : DataFrame) (hdf : ∀ col ∈ df, col.cells.length = n) :
    step3 target (permuteDF p df) = permuteDF p (step3 target df) := by
  unfold step3 permuteDF
  rw [List.map_map, List.map_map]
  apply List.map_congr_left
  intro col hcol
  have hl := hdf col hcol
  show (if isBinaryColB target (permCol p col) then
      map_binary_series (astype_str (permCol p col)) else permCol p col) =
    permCol p (if isBinaryColB target col then map_binary_series (astype_str col) else col)
  rw [isBinaryColB_permCol target hp col hl]
  by_cases hb : isBinaryColB target col = true
  · rw [if_pos hb, if_pos hb, astype_str_permCol hp col hl,
      map_binary_series_permCol hp (astype_str col) (by
        unfold astype_str
        dsimp only
        rw [List.length_map]
        exact hl)]
  · rw [if_neg hb, if_neg hb]

theorem step4_perm {p : List ℕ} {n : ℕ} (hp : p.Perm (List.range n))
    (df : DataFrame) (hdf : ∀ col ∈ df, col.cells.length = n) :
    step4 (permuteDF p df) = permuteDF p (step4 df) := by
  unfold step4 permuteDF
  rw [List.map_map, List.map_map]
  apply List.map_congr_left
  intro col hcol
  have hl := hdf col hcol
  show (if (permCol p col).dtype = Dtype.boolDt then
      (⟨(permCol p col).name, Dtype.int64, (permCol p col).cells.map boolCellToInt⟩ : Col)
      else permCol p col) =
    permCol p (if col.dtype = Dtype.boolDt then
      ⟨col.name, Dtype.int64, col.cells.map boolCellToInt⟩ else col)
  by_cases hb : col.dtype = Dtype.boolDt
  · rw [if_pos hb, if_pos (show (permCol p col).dtype = Dtype.boolDt from hb)]
    show (⟨col.name, Dtype.int64, (applyPerm p col.cells).map boolCellToInt⟩ : Col) = _
    unfold permCol
    dsimp only
    rw [applyPerm_map hp col.cells hl]
  · rw [if_neg hb, if_neg (show ¬(permCol p col).dtype = Dtype.boolDt from hb)]

theorem categoriesOf_perm {l1 l2 : List Cell} (h : l1.Perm l2) :
    categoriesOf l1 = categoriesOf l2 := by
  unfold categoriesOf
  exact insertionSort_eq_of_perm ((h.filterMap _).dedup)

theorem dummiesOf_permCol {p : List ℕ} {n : ℕ} (hp : p.Perm (List.range n))
    (col : Col) (hl : col.cells.length = n) :
    dummiesOf (permCol p col) = (dummiesOf col).map (permCol p) := by
  unfold dummiesOf
  have hcat : categoriesOf (permCol p col).cells = categoriesOf col.cells :=
    categoriesOf_perm (applyPerm_perm hp _ hl)
  rw [hcat, List.map_map]
  apply List.map_congr_left
  intro cat _
  show (⟨(permCol p col).name ++ "_" ++ cat, Dtype.uint8, (permCol p col).cells.map
      (fun c => Cell.int (if c = Cell.str cat then 1 else 0))⟩ : Col) =
    permCol p ⟨col.name ++ "_" ++ cat, Dtype.uint8, col.cells.map
      (fun c => Cell.int (if c = Cell.str cat then 1 else 0))⟩
  unfold permCol
  dsimp only
  rw [applyPerm_map hp col.cells hl]

theorem step5_perm {p : List ℕ} {n : ℕ} (hp : p.Perm (List.range n))
    (multi : List String) (df : DataFrame) (hdf : ∀ col ∈ df, col.cells.length = n) :
    step5 multi (permuteDF p df) = permuteDF p (step5 multi df) := by
  unfold step5 permuteDF
  rw [List.map_append]
  congr 1
  · have hfil : List.filter ((fun col => !(decide (col.name ∈ multi))) ∘ permCol p) df =
        List.filter (fun col => !(decide (col.name ∈ multi))) df :=
      List.filter_congr (fun x _ => rfl)
    rw [List.filter_map, hfil]
  · have hfil : List.filter ((fun col => decide (col.name ∈ multi)) ∘ permCol p) df =
        List.filter (fun col => decide (col.name ∈ multi)) df :=
      List.filter_congr (fun x _ => rfl)
    rw [List.filter_map, hfil, List.map_map, List.map_flatten, List.map_map]
    congr 1
    apply List.map_congr_left
    intro col hcol
    have hl := hdf col (List.mem_filter.mp hcol).1
    show dummiesOf (permCol p col) = (dummiesOf col).map (permCol p)
    exact dummiesOf_permCol hp col hl

theorem step6_perm {p : List ℕ} {n : ℕ} (hp : p.Perm (List.range n))
    (binary : List String) (df : DataFrame) (hdf : ∀ col ∈ df, col.cells.length = n) :
    step6 binary (permuteDF p df) = permuteDF p (step6 binary df) := by
  unfold step6 permuteDF
  rw [List.map_map, List.map_map]
  apply List.map_congr_left
  intro col hcol
  have hl := hdf col hcol
  show (if (permCol p col).name ∈ binary ∧ isIntegerDtype (permCol p col).dtype = true then
      cleanupCol (permCol p col) else permCol p col) =
    permCol p (if col.name ∈ binary ∧ isIntegerDtype col.dtype = true then
      cleanupCol col else col)
  by_cases hb : col.name ∈ binary ∧ isIntegerDtype col.dtype = true
  · rw [if_pos hb, if_pos (show (permCol p col).name ∈ binary ∧
      isIntegerDtype (permCol p col).dtype = true from hb)]
    show (⟨col.name, Dtype.int64, (applyPerm p col.cells).map fillna0⟩ : Col) = _
    unfold cleanupCol permCol
    dsimp only
    rw [applyPerm_map hp col.cells hl]
  · rw [if_neg hb, if_neg (show ¬((permCol p col).name ∈ binary ∧
      isIntegerDtype (permCol p col).dtype = true) from hb)]

end Churn

namespace Churn

theorem map_binary_series_cells_length (col : Col) :
    (map_binary_series col).cells.length = col.cells.length := by
  unfold map_binary_series
  dsimp only
  split_ifs
  · exact List.length_map _ _
  · exact List.length_map _ _
  · split
    · exact List.length_map _ _
    · rfl
  · rfl

theorem step3_lengths {target : String} {df : DataFrame} {n : ℕ}
    (hdf : ∀ col ∈ df, col.cells.length = n) :
    ∀ col ∈ step3 target df, col.cells.length = n := by
  intro col hcol
  unfold step3 at hcol
  rcases List.mem_map.mp hcol with ⟨c, hc, hceq⟩
  subst hceq
  by_cases hb : isBinaryColB target c = true
  · rw [if_pos hb, map_binary_series_cells_length]
    show (astype_str c).cells.length = n
    unfold astype_str
    dsimp only
    rw [List.length_map]
    exact hdf c hc
  · rw [if_neg hb]
    exact hdf c hc

theorem step4_lengths {df : DataFrame} {n : ℕ}
    (hdf : ∀ col ∈ df, col.cells.length = n) :
    ∀ col ∈ step4 df, col.cells.length = n := by
  intro col hcol
  unfold step4 at hcol
  rcases List.mem_map.mp hcol with ⟨c, hc, hceq⟩
  subst hceq
  by_cases hb : c.dtype = Dtype.boolDt
  · rw [if_pos hb]
    show (c.cells.map boolCellToInt).length = n
    rw [List.length_map]
    exact hdf c hc
  · rw [if_neg hb]
    exact hdf c hc

theorem step5_lengths {multi : List String} {df : DataFrame} {n : ℕ}
    (hdf : ∀ col ∈ df, col.cells.length = n) :
    ∀ col ∈ step5 multi df, col.cells.length = n := by
  intro col hcol
  unfold step5 at hcol
  rcases List.mem_append.mp hcol with hcol | hcol
  · exact hdf col (List.mem_filter.mp hcol).1
  · rcases List.mem_flatten.mp hcol with ⟨block, hblock, hcolin⟩
    rcases List.mem_map.mp hblock with ⟨c, hc, hceq⟩
    subst hceq
    unfold dummiesOf at hcolin
    rcases List.mem_map.mp hcolin with ⟨cat, _, hcateq⟩
    subst hcateq
    show (c.cells.map _).length = n
    rw [List.length_map]
    exact hdf c (List.mem_filter.mp hc).1

/-- C4: the pipeline commutes with any row permutation.  Encoding a
row-permuted dataset yields exactly the row-permuted encoding of the
original: in particular the output column names, their order and
their dtypes are identical between the two runs, and only the row
order differs, correspondingly. -/
theorem build_features_perm_equivariant (df : DataFrame) (target : String)
    (p : List ℕ) (n : ℕ) (hp : p.Perm (List.range n))
    (hdf : ∀ col ∈ df, col.cells.length = n) :
    build_features (permuteDF p df) target = permuteDF p (build_features df target) := by
  unfold build_features
  rw [binaryNames_permuteDF target hp df hdf, multiNames_permuteDF target hp df hdf,
    step3_perm hp target df hdf,
    step4_perm hp (step3 target df) (step3_lengths hdf),
    step5_perm hp (multiNames target df) (step4 (step3 target df))
      (step4_lengths (step3_lengths hdf)),
    step6_perm hp (binaryNames target df)
      (step5 (multiNames target df) (step4 (step3 target df)))
      (step5_lengths (step4_lengths (step3_lengths hdf)))]

/-- Witness for C4: swapping the two rows of a concrete mixed
dataframe commutes with the pipeline. -/
theorem build_features_perm_equivariant_witness :
    build_features (permuteDF [1, 0] dfC4W) "Churn" =
      permuteDF [1, 0] (build_features dfC4W "Churn") :=
  build_features_perm_equivariant dfC4W "Churn" [1, 0] 2 (by decide) (by decide)

end Churn
